import Mathlib

/-!
# Verification of the openhtf entry point (`openhtf/__init__.py`)

Shallow embedding of the pure logic of the `openhtf` package entry point:
the `TestPhase` decorator, the `Test` class with its `plug_type_map`
property, `AddOutputCallback` and `OutputTestRecord`.

Python object identity of plug types and of callables is modelled by a
`Nat` identifier; a Python function object is modelled by the `PhaseFunc`
structure recording the pieces of state the entry point inspects or
mutates (its `inspect.getargspec` data and the attributes `timeout_s`,
`run_if`, `plugs`, `parameters`).  A Python `dict` is modelled by an
association list in insertion order, with assignment updating in place
when the key is present and appending otherwise, exactly as CPython does.
-/

set_option autoImplicit false

/-- The exception taxonomy of the entry point: `InvalidTestPhaseError` is
raised by the `TestPhase` decorator, `plugs.DuplicatePlugError` by
`Test.plug_type_map`. -/
inductive HTFError where
  | InvalidTestPhaseError (msg : String)
  | DuplicatePlugError (msg : String)
  deriving DecidableEq

/-- A plug mapping (`phase.plugs`, and the value of `plug_type_map`):
a Python dict from plug name to plug type, with types compared by object
identity (modelled by `Nat`). The list keeps dict insertion order. -/
abbrev PlugMap := List (String × Nat)

/-- Model of a Python function object as the entry point sees it:
`args`/`defaults` are the `inspect.getargspec` data (`args` is the list of
declared positional parameter names, `defaults` how many of them carry
default values); `timeout_s`, `run_if`, `plugs`, `parameters` are the
optional attributes (`none` models an absent attribute); `id` is the
object identity of the function. -/
structure PhaseFunc where
  id : Nat
  args : List String
  defaults : Nat := 0
  timeout_s : Option Nat := none
  run_if : Option Nat := none
  plugs : Option PlugMap := none
  parameters : Option (List Nat) := none
  deriving DecidableEq

/-- The minimum number of arguments a call to the function must supply:
declared positional parameters minus those with defaults. -/
def minRequiredArgs (f : PhaseFunc) : Nat :=
  f.args.length - f.defaults

/-- The inner `Wrap` closure of the `TestPhase` decorator
(`openhtf/__init__.py` lines 118-130): raise `InvalidTestPhaseError` when
`len(inspect.getargspec(phase_func).args) < 1`, otherwise set the
`timeout_s` and `run_if` attributes for the options that are not `None`
and return the same function object. -/
def Wrap (timeout_s run_if : Option Nat) (phase_func : PhaseFunc) :
    Except HTFError PhaseFunc :=
  if phase_func.args.length < 1 then
    .error (.InvalidTestPhaseError "Not enough args")
  else
    let f1 := if timeout_s.isSome then { phase_func with timeout_s := timeout_s }
              else phase_func
    let f2 := if run_if.isSome then { f1 with run_if := run_if } else f1
    .ok f2

/-- The `TestPhase` decorator itself: returns the `Wrap` closure for the
given options. -/
def TestPhase (timeout_s run_if : Option Nat) :
    PhaseFunc → Except HTFError PhaseFunc :=
  Wrap timeout_s run_if

/-- Python dict lookup on the association-list model. -/
def lookupPlug : PlugMap → String → Option Nat
  | [], _ => none
  | (k, v) :: rest, key => if k = key then some v else lookupPlug rest key

/-- Python dict assignment `d[k] = v`: update the entry in place when the
key is present (insertion order preserved), append otherwise. -/
def dictInsert (m : PlugMap) (k : String) (v : Nat) : PlugMap :=
  if (lookupPlug m k).isSome then
    m.map fun p => if p.1 = k then (k, v) else p
  else
    m ++ [(k, v)]

/-- Model of an output callback: `id` is its object identity; `raises rec`
tells whether invoking it on the record `rec` raises an exception. -/
structure Callback where
  id : Nat
  raises : Nat → Bool

/-- Model of a `Test` object: the fields `__init__` assigns.  A test
record is modelled by a `Nat` identifier. -/
structure Test where
  phases : List PhaseFunc
  output_callbacks : List Callback
  filename : String
  docstring : String
  code : String
  parameters : List Nat

/-- Modelled from the spec: `parameters.TestParameterList.Union` lives in
`openhtf/util/parameters.py`, which is not among the sources here; the
code comment says "Parameters can be directly attached to phases so we
union the lists", so `Union` is modelled as the concatenation of the
per-phase parameter lists. -/
def TestParameterListUnion (ls : List (List Nat)) : List Nat :=
  ls.flatten

/-- `Test.__init__` (`openhtf/__init__.py` lines 143-162): store the phase
tuple, start with an empty output-callback list, record the caller-frame
metadata (`filename`, `docstring`, `code`, passed here as arguments since
they come from `inspect.stack()`), and union the `parameters` attributes
of the phases that have one.  Note that `__init__` never touches
`plug_type_map`. -/
def testInit (phases : List PhaseFunc) (filename docstring code : String) :
    Test :=
  { phases := phases
    output_callbacks := []
    filename := filename
    docstring := docstring
    code := code
    parameters :=
      TestParameterListUnion (phases.filterMap fun phase => phase.parameters) }

/-- `itertools.chain.from_iterable(phase.plugs.iteritems() for phase in
self.phases if hasattr(phase, 'plugs'))`: the concatenation of the plug
dicts of the phases that have a `plugs` attribute. -/
def chainedPlugs (phases : List PhaseFunc) : List (String × Nat) :=
  (phases.filterMap fun phase => phase.plugs).flatten

/-- The loop body of the `plug_type_map` property: fold the chained
`(plug, plug_type)` pairs into a dict, raising `DuplicatePlugError` when a
name is already bound to a different (by identity) type. -/
def plugTypeMapLoop : List (String × Nat) → PlugMap → Except HTFError PlugMap
  | [], acc => .ok acc
  | (plug, plug_type) :: rest, acc =>
    match lookupPlug acc plug with
    | some existing =>
      if plug_type ≠ existing then
        .error (.DuplicatePlugError ("Duplicate plug with different type: " ++ plug))
      else
        plugTypeMapLoop rest (dictInsert acc plug plug_type)
    | none => plugTypeMapLoop rest (dictInsert acc plug plug_type)

/-- The `Test.plug_type_map` property (`openhtf/__init__.py` lines
164-176).  It is a `@property`: computed afresh on each access, never
during `__init__`. -/
def plug_type_map (t : Test) : Except HTFError PlugMap :=
  plugTypeMapLoop (chainedPlugs t.phases) []

/-- `Test.AddOutputCallback`: unconditionally append to the callback
list.  There is no guard and `Test` holds no started/running state. -/
def AddOutputCallback (t : Test) (callback : Callback) : Test :=
  { t with output_callbacks := t.output_callbacks ++ [callback] }

/-- The loop of `Test.OutputTestRecord`: invoke the callbacks in list
order; an exception raised by one propagates out of the plain `for` loop
(there is no handler), so the remaining callbacks are not invoked.
Returns the identities of the callbacks that were invoked, in invocation
order, and whether the loop finished without an exception. -/
def runCallbacks : List Callback → Nat → List Nat × Bool
  | [], _ => ([], true)
  | cb :: rest, test_record =>
    if cb.raises test_record then
      ([cb.id], false)
    else
      let r := runCallbacks rest test_record
      (cb.id :: r.1, r.2)

/-- `Test.OutputTestRecord` (`openhtf/__init__.py` lines 181-183). -/
def OutputTestRecord (t : Test) (test_record : Nat) : List Nat × Bool :=
  runCallbacks t.output_callbacks test_record

/-- The phases of `t` require plug `k` at type `v`: some phase has a
`plugs` attribute binding `k` to `v`. -/
def RequiresPlug (t : Test) (k : String) (v : Nat) : Prop :=
  ∃ f ∈ t.phases, ∃ pm, f.plugs = some pm ∧ (k, v) ∈ pm

/-- A list of name/type pairs is consistent when no name occurs with two
distinct types. -/
def Consistent (l : List (String × Nat)) : Prop :=
  ∀ p ∈ l, ∀ q ∈ l, p.1 = q.1 → p.2 = q.2

instance (l : List (String × Nat)) : Decidable (Consistent l) := by
  unfold Consistent; infer_instance

/-! ## Lemmas about the association-list dict model -/

/-- The keys of a plug map, in order. -/
def plugKeys (m : PlugMap) : List String :=
  m.map Prod.fst

theorem mem_of_lookupPlug_eq_some {m : PlugMap} {k : String} {v : Nat}
    (h : lookupPlug m k = some v) : (k, v) ∈ m := by
  induction m with
  | nil => simp [lookupPlug] at h
  | cons p rest ih =>
    obtain ⟨a, b⟩ := p
    by_cases hak : a = k
    · subst hak
      simp [lookupPlug] at h
      subst h
      exact List.mem_cons_self _ _
    · simp [lookupPlug, hak] at h
      exact List.mem_cons_of_mem _ (ih h)

theorem lookupPlug_eq_none_iff {m : PlugMap} {k : String} :
    lookupPlug m k = none ↔ k ∉ plugKeys m := by
  induction m with
  | nil => simp [lookupPlug, plugKeys]
  | cons p rest ih =>
    obtain ⟨a, b⟩ := p
    by_cases hak : a = k
    · subst hak
      simp [lookupPlug, plugKeys]
    · simp [lookupPlug, hak, plugKeys] at ih ⊢
      rw [ih]
      tauto

theorem lookupPlug_of_mem_nodup {m : PlugMap} {k : String} {v : Nat}
    (hnd : (plugKeys m).Nodup) (hmem : (k, v) ∈ m) :
    lookupPlug m k = some v := by
  induction m with
  | nil => simp at hmem
  | cons p rest ih =>
    obtain ⟨a, b⟩ := p
    simp only [plugKeys, List.map_cons, List.nodup_cons] at hnd
    rcases List.mem_cons.mp hmem with h | h
    · rw [← h]
      simp [lookupPlug]
    · have hak : a ≠ k := by
        intro hak
        exact hnd.1 (hak ▸ List.mem_map_of_mem Prod.fst h)
      simp [lookupPlug, hak]
      exact ih hnd.2 h

theorem consistent_of_nodup_keys {m : PlugMap} (hnd : (plugKeys m).Nodup) :
    Consistent m := by
  intro p hp q hq hfst
  have h1 := lookupPlug_of_mem_nodup (k := p.1) (v := p.2) hnd (by simpa using hp)
  have h2 := lookupPlug_of_mem_nodup (k := q.1) (v := q.2) hnd (by simpa using hq)
  rw [hfst] at h1
  rw [h1] at h2
  exact Option.some_inj.mp h2

theorem consistent_congr {l₁ l₂ : List (String × Nat)}
    (h : ∀ x, x ∈ l₁ ↔ x ∈ l₂) : Consistent l₁ ↔ Consistent l₂ := by
  constructor <;> intro hc p hp q hq hfst
  · exact hc p ((h p).mpr hp) q ((h q).mpr hq) hfst
  · exact hc p ((h p).mp hp) q ((h q).mp hq) hfst

theorem dictInsert_self {m : PlugMap} {k : String} {v : Nat}
    (hnd : (plugKeys m).Nodup) (h : lookupPlug m k = some v) :
    dictInsert m k v = m := by
  unfold dictInsert
  rw [h]
  simp only [Option.isSome_some, if_true]
  have : ∀ p ∈ m, (if p.1 = k then (k, v) else p) = p := by
    intro p hp
    by_cases hpk : p.1 = k
    · obtain ⟨a, b⟩ := p
      simp only at hpk
      subst hpk
      have := lookupPlug_of_mem_nodup hnd hp
      rw [h] at this
      simp only [if_pos rfl]
      exact congrArg _ (Option.some_inj.mp this)
    · simp [hpk]
  calc m.map (fun p => if p.1 = k then (k, v) else p) = m.map id := List.map_congr_left this
    _ = m := List.map_id m

theorem dictInsert_of_lookup_none {m : PlugMap} {k : String} {v : Nat}
    (h : lookupPlug m k = none) : dictInsert m k v = m ++ [(k, v)] := by
  unfold dictInsert
  rw [h]
  simp

/-! ## The main loop invariant of `plug_type_map` -/

/-- Full specification of the `plug_type_map` loop: starting from an
accumulator with distinct keys, the loop succeeds exactly when the
accumulated and remaining bindings are pairwise consistent, and on
success the resulting dict binds exactly the names bound in the input,
each to its unique type. -/
theorem plugTypeMapLoop_spec (l : List (String × Nat)) :
    ∀ acc : PlugMap, (plugKeys acc).Nodup →
      (∀ r, plugTypeMapLoop l acc = .ok r →
          (plugKeys r).Nodup ∧ Consistent (acc ++ l) ∧
          ∀ k v, (lookupPlug r k = some v ↔ (k, v) ∈ acc ++ l))
      ∧ (Consistent (acc ++ l) → ∃ r, plugTypeMapLoop l acc = .ok r) := by
  induction l with
  | nil =>
    intro acc hnd
    constructor
    · intro r hr
      simp only [plugTypeMapLoop] at hr
      cases hr
      refine ⟨hnd, by simpa using consistent_of_nodup_keys hnd, ?_⟩
      intro k v
      simp only [List.append_nil]
      exact ⟨mem_of_lookupPlug_eq_some, lookupPlug_of_mem_nodup hnd⟩
    · intro _
      exact ⟨acc, rfl⟩
  | cons hd rest ih =>
    intro acc hnd
    obtain ⟨k₀, v₀⟩ := hd
    by_cases hlk : ∃ v, lookupPlug acc k₀ = some v
    · obtain ⟨existing, hex⟩ := hlk
      by_cases hv : v₀ = existing
      · subst hv
        have hstep : plugTypeMapLoop ((k₀, v₀) :: rest) acc = plugTypeMapLoop rest acc := by
          simp only [plugTypeMapLoop, hex]
          rw [if_neg (fun h => h rfl), dictInsert_self hnd hex]
        have hmemeq : ∀ x, x ∈ acc ++ (k₀, v₀) :: rest ↔ x ∈ acc ++ rest := by
          intro x
          simp only [List.mem_append, List.mem_cons]
          constructor
          · rintro (h | h | h)
            · exact Or.inl h
            · exact Or.inl (h ▸ mem_of_lookupPlug_eq_some hex)
            · exact Or.inr h
          · rintro (h | h)
            · exact Or.inl h
            · exact Or.inr (Or.inr h)
        obtain ⟨ihok, ihex⟩ := ih acc hnd
        constructor
        · intro r hr
          rw [hstep] at hr
          obtain ⟨hrnd, hcons, hlook⟩ := ihok r hr
          refine ⟨hrnd, (consistent_congr hmemeq).mpr hcons, ?_⟩
          intro k v
          rw [hlook k v]
          exact (hmemeq (k, v)).symm
        · intro hcons
          obtain ⟨r, hr⟩ := ihex ((consistent_congr hmemeq).mp hcons)
          exact ⟨r, hstep ▸ hr⟩
      · have hstep : plugTypeMapLoop ((k₀, v₀) :: rest) acc =
            .error (.DuplicatePlugError ("Duplicate plug with different type: " ++ k₀)) := by
          simp [plugTypeMapLoop, hex, hv]
        constructor
        · intro r hr
          rw [hstep] at hr
          cases hr
        · intro hcons
          exfalso
          apply hv
          have h₁ : (k₀, v₀) ∈ acc ++ (k₀, v₀) :: rest := by simp
          have h₂ : (k₀, existing) ∈ acc ++ (k₀, v₀) :: rest :=
            List.mem_append_left _ (mem_of_lookupPlug_eq_some hex)
          exact hcons (k₀, v₀) h₁ (k₀, existing) h₂ rfl
    · have hex : lookupPlug acc k₀ = none := by
        cases h : lookupPlug acc k₀ with
        | none => rfl
        | some v => exact absurd ⟨v, h⟩ hlk
      have hstep : plugTypeMapLoop ((k₀, v₀) :: rest) acc =
          plugTypeMapLoop rest (acc ++ [(k₀, v₀)]) := by
        simp only [plugTypeMapLoop, hex]
        rw [dictInsert_of_lookup_none hex]
      have hnd' : (plugKeys (acc ++ [(k₀, v₀)])).Nodup := by
        have hk₀ : k₀ ∉ plugKeys acc := lookupPlug_eq_none_iff.mp hex
        simp only [plugKeys, List.map_append, List.map_cons, List.map_nil]
        rw [List.nodup_append]
        refine ⟨hnd, List.nodup_singleton _, ?_⟩
        intro a ha hb
        simp only [List.mem_singleton] at hb
        exact hk₀ (hb ▸ ha)
      have hle : (acc ++ [(k₀, v₀)]) ++ rest = acc ++ (k₀, v₀) :: rest := by
        simp
      obtain ⟨ihok, ihex⟩ := ih (acc ++ [(k₀, v₀)]) hnd'
      constructor
      · intro r hr
        rw [hstep] at hr
        obtain ⟨hrnd, hcons, hlook⟩ := ihok r hr
        rw [hle] at hcons hlook
        exact ⟨hrnd, hcons, hlook⟩
      · intro hcons
        rw [← hle] at hcons
        obtain ⟨r, hr⟩ := ihex hcons
        exact ⟨r, hstep ▸ hr⟩

/-! ## Corollaries about `plug_type_map` -/

theorem mem_chainedPlugs {phases : List PhaseFunc} {k : String} {v : Nat} :
    (k, v) ∈ chainedPlugs phases ↔
      ∃ f ∈ phases, ∃ pm, f.plugs = some pm ∧ (k, v) ∈ pm := by
  simp only [chainedPlugs, List.mem_flatten, List.mem_filterMap]
  constructor
  · rintro ⟨pm, ⟨f, hf, hpm⟩, hmem⟩
    exact ⟨f, hf, pm, hpm, hmem⟩
  · rintro ⟨f, hf, pm, hpm, hmem⟩
    exact ⟨pm, ⟨f, hf, hpm⟩, hmem⟩

theorem except_error_iff_not_ok {ε α : Type} (x : Except ε α) :
    (∃ e, x = .error e) ↔ ¬ ∃ a, x = .ok a := by
  cases x <;> simp

theorem plug_type_map_ok_iff_consistent (t : Test) :
    (∃ r, plug_type_map t = .ok r) ↔ Consistent (chainedPlugs t.phases) := by
  have h := plugTypeMapLoop_spec (chainedPlugs t.phases) [] (by simp [plugKeys])
  constructor
  · rintro ⟨r, hr⟩
    simpa using (h.1 r hr).2.1
  · intro hcons
    exact h.2 (by simpa using hcons)

theorem plug_type_map_error_iff_inconsistent (t : Test) :
    (∃ e, plug_type_map t = .error e) ↔ ¬ Consistent (chainedPlugs t.phases) := by
  rw [except_error_iff_not_ok, plug_type_map_ok_iff_consistent]

theorem not_consistent_iff {l : List (String × Nat)} :
    ¬ Consistent l ↔ ∃ k v₁ v₂, v₁ ≠ v₂ ∧ (k, v₁) ∈ l ∧ (k, v₂) ∈ l := by
  unfold Consistent
  push_neg
  constructor
  · rintro ⟨p, hp, q, hq, hfst, hsnd⟩
    refine ⟨p.1, p.2, q.2, hsnd, by simpa using hp, ?_⟩
    have : (p.1, q.2) = q := by
      rw [hfst]
    rw [this]
    exact hq
  · rintro ⟨k, v₁, v₂, hne, h1, h2⟩
    exact ⟨(k, v₁), h1, (k, v₂), h2, rfl, hne⟩

theorem requiresPlug_iff_mem_chained {t : Test} {k : String} {v : Nat} :
    RequiresPlug t k v ↔ (k, v) ∈ chainedPlugs t.phases := by
  rw [mem_chainedPlugs]
  rfl

theorem plugTypeMapLoop_error_duplicate {l : List (String × Nat)} :
    ∀ {acc : PlugMap} {e : HTFError}, plugTypeMapLoop l acc = .error e →
      ∃ msg, e = .DuplicatePlugError msg := by
  induction l with
  | nil =>
    intro acc e h
    simp [plugTypeMapLoop] at h
  | cons hd rest ih =>
    intro acc e h
    obtain ⟨k₀, v₀⟩ := hd
    cases hlk : lookupPlug acc k₀ with
    | some existing =>
      simp only [plugTypeMapLoop, hlk] at h
      by_cases hv : v₀ ≠ existing
      · rw [if_pos hv] at h
        cases h
        exact ⟨_, rfl⟩
      · rw [if_neg hv] at h
        exact ih h
    | none =>
      simp only [plugTypeMapLoop, hlk] at h
      exact ih h

theorem duplicate_error_iff_error (t : Test) :
    (∃ msg, plug_type_map t = .error (.DuplicatePlugError msg)) ↔
      (∃ e, plug_type_map t = .error e) := by
  constructor
  · rintro ⟨msg, h⟩
    exact ⟨_, h⟩
  · rintro ⟨e, h⟩
    obtain ⟨msg, rfl⟩ := plugTypeMapLoop_error_duplicate h
    exact ⟨msg, h⟩

/-! ## Concrete phases, callbacks and tests used by witnesses -/

def phaseA : PhaseFunc := { id := 10, args := ["test"], plugs := some [("adc", 1)] }

def phaseB : PhaseFunc :=
  { id := 11, args := ["test"], plugs := some [("dmm", 2), ("adc", 1)] }

def phaseConflict : PhaseFunc := { id := 12, args := ["test"], plugs := some [("adc", 3)] }

def exTest : Test := testInit [phaseA, phaseB] "example.py" "" ""

/-! ## Claims C1, C2, C8: the `plug_type_map` property -/

/-- C1: accessing `plug_type_map` raises `DuplicatePlugError` exactly when some
plug name is required at two distinct (by object identity) plug types across
the phase list; when every occurrence of a name resolves to the identical type,
no error is raised (the access returns a map, by exhaustiveness of `Except`). -/
theorem plug_type_map_duplicate_error_iff (t : Test) :
    (∃ msg, plug_type_map t = .error (.DuplicatePlugError msg)) ↔
      ∃ plug v₁ v₂, v₁ ≠ v₂ ∧ RequiresPlug t plug v₁ ∧ RequiresPlug t plug v₂ := by
  rw [duplicate_error_iff_error, plug_type_map_error_iff_inconsistent, not_consistent_iff]
  constructor
  · rintro ⟨k, v₁, v₂, hne, h1, h2⟩
    exact ⟨k, v₁, v₂, hne, requiresPlug_iff_mem_chained.mpr h1,
      requiresPlug_iff_mem_chained.mpr h2⟩
  · rintro ⟨k, v₁, v₂, hne, h1, h2⟩
    exact ⟨k, v₁, v₂, hne, requiresPlug_iff_mem_chained.mp h1,
      requiresPlug_iff_mem_chained.mp h2⟩

/-- C2: when the phases' required plug mappings are pairwise consistent,
`plug_type_map` succeeds, and the returned dict binds a name to a type exactly
when some phase with a `plugs` attribute requires that binding — the union of
the phases' mappings, with attribute-less phases contributing nothing. -/
theorem plug_type_map_union (t : Test)
    (h : Consistent (chainedPlugs t.phases)) :
    ∃ r, plug_type_map t = .ok r ∧
      ∀ plug v, (lookupPlug r plug = some v ↔ RequiresPlug t plug v) := by
  obtain ⟨r, hr⟩ := (plug_type_map_ok_iff_consistent t).mpr h
  refine ⟨r, hr, ?_⟩
  intro plug v
  have hspec := (plugTypeMapLoop_spec (chainedPlugs t.phases) []
    (by simp [plugKeys])).1 r hr
  rw [requiresPlug_iff_mem_chained]
  simpa using hspec.2.2 plug v

/-- Witness for C2 at a concrete two-phase test with consistent plugs. -/
theorem plug_type_map_union_witness :
    ∃ r, plug_type_map exTest = .ok r ∧
      ∀ plug v, (lookupPlug r plug = some v ↔ RequiresPlug exTest plug v) :=
  plug_type_map_union exTest (by decide)

/-- C8: the duplicate-plug check is order-independent — permuting the phase
list does not change whether accessing `plug_type_map` raises. -/
theorem plug_type_map_error_perm (t u : Test) (h : t.phases.Perm u.phases) :
    ((∃ e, plug_type_map t = .error e) ↔ (∃ e, plug_type_map u = .error e)) := by
  rw [plug_type_map_error_iff_inconsistent, plug_type_map_error_iff_inconsistent]
  apply not_congr
  apply consistent_congr
  rintro ⟨k, v⟩
  rw [mem_chainedPlugs, mem_chainedPlugs]
  constructor
  · rintro ⟨f, hf, hrest⟩
    exact ⟨f, h.mem_iff.mp hf, hrest⟩
  · rintro ⟨f, hf, hrest⟩
    exact ⟨f, h.mem_iff.mpr hf, hrest⟩

/-- Witness for C8 at a concrete conflicting test and its swap. -/
theorem plug_type_map_error_perm_witness :
    ((∃ e, plug_type_map (testInit [phaseA, phaseConflict] "a.py" "" "") = .error e) ↔
      (∃ e, plug_type_map (testInit [phaseConflict, phaseA] "a.py" "" "") = .error e)) :=
  plug_type_map_error_perm
    (testInit [phaseA, phaseConflict] "a.py" "" "")
    (testInit [phaseConflict, phaseA] "a.py" "" "")
    (List.Perm.swap phaseConflict phaseA [])

/-! ## Claims C3, C7, C9: the `TestPhase` decorator -/

/-- A phase callable declared as `def f(x=1)`: one declared positional
parameter carrying a default, so its minimum required argument count is 0. -/
def defaultedFunc : PhaseFunc := { id := 20, args := ["x"], defaults := 1 }

/-- A plain phase callable `def f(test)` with no attributes set. -/
def plainPhase : PhaseFunc := { id := 7, args := ["test"] }

/-- A phase callable that already carries `timeout_s` and `run_if`
attributes. -/
def attrPhase : PhaseFunc :=
  { id := 21, args := ["test"], timeout_s := some 30, run_if := some 5 }

/-- C3 counterexample: `defaultedFunc` (one defaulted parameter) has minimum
required parameter count 0, yet the decorator accepts it, because the check
counts `inspect.getargspec(f).args` — declared positional parameters,
defaults included — not the minimum required count. -/
theorem testPhase_zero_required_accepted :
    minRequiredArgs defaultedFunc = 0 ∧
      TestPhase none none defaultedFunc = .ok defaultedFunc :=
  ⟨rfl, rfl⟩

/-- C3 amended: decoration fails with `InvalidTestPhaseError` exactly when the
callable declares no named positional parameters at all
(`len(inspect.getargspec(f).args) < 1`); any callable declaring at least one
parameter, required or defaulted, is accepted. -/
theorem testPhase_error_iff_no_args (timeout_s run_if : Option Nat)
    (f : PhaseFunc) :
    (∃ msg, TestPhase timeout_s run_if f = .error (.InvalidTestPhaseError msg)) ↔
      f.args = [] := by
  unfold TestPhase Wrap
  constructor
  · rintro ⟨msg, h⟩
    by_cases hlen : f.args.length < 1
    · exact List.eq_nil_of_length_eq_zero (by omega)
    · rw [if_neg hlen] at h
      exact Except.noConfusion h
  · intro h
    rw [if_pos (by simp [h])]
    exact ⟨"Not enough args", rfl⟩

/-- C9: with both options `None`, decoration returns the callable entirely
unchanged: no `timeout_s` or `run_if` attribute is attached, and pre-existing
attributes of those names keep their values. -/
theorem testPhase_none_none_id (f : PhaseFunc) (h : f.args ≠ []) :
    TestPhase none none f = .ok f := by
  unfold TestPhase Wrap
  rw [if_neg (by simpa [Nat.lt_one_iff, List.length_eq_zero] using h)]
  rfl

/-- Witness for C9 at a callable that already carries both attributes. -/
theorem testPhase_none_none_id_witness :
    TestPhase none none attrPhase = .ok attrPhase :=
  testPhase_none_none_id attrPhase (by decide)

/-- C7 counterexample: the "descriptor" is the function object itself, and a
later decoration reassigns its metadata in place — same object (`id` 7),
`timeout_s` changed from 5 to 9 — so the descriptor is not immutable after
construction. -/
theorem descriptor_mutation :
    TestPhase (some 5) none plainPhase =
      .ok { plainPhase with timeout_s := some 5 } ∧
    TestPhase (some 9) none { plainPhase with timeout_s := some 5 } =
      .ok { plainPhase with timeout_s := some 9 } :=
  ⟨rfl, rfl⟩

/-- C7 amended: decoration preserves the callable's identity and all other
attributes (plug requirements stay introspectable), attaching exactly the
non-`None` options by assigning the `timeout_s`/`run_if` attributes; the
result is the same mutable function object, not an immutable descriptor. -/
theorem testPhase_attaches_options (timeout_s run_if : Option Nat)
    (f : PhaseFunc) (h : f.args ≠ []) :
    TestPhase timeout_s run_if f =
      .ok { f with timeout_s := timeout_s.or f.timeout_s,
                   run_if := run_if.or f.run_if } := by
  unfold TestPhase Wrap
  rw [if_neg (by simpa [Nat.lt_one_iff, List.length_eq_zero] using h)]
  cases timeout_s <;> cases run_if <;> rfl

/-- Witness for C7's amended statement at a concrete callable and options. -/
theorem testPhase_attaches_options_witness :
    TestPhase (some 5) (some 8) plainPhase =
      .ok { plainPhase with timeout_s := some 5, run_if := some 8 } :=
  testPhase_attaches_options (some 5) (some 8) plainPhase (by decide)

/-! ## Claims C4, C10: `Test.__init__` and laziness of `plug_type_map` -/

/-- C4 counterexample: a `Test` over two phases requiring plug "adc" at two
different types is constructed without any error — `__init__` never computes
the plug map, and is total — while accessing the `plug_type_map` property
raises `DuplicatePlugError`. -/
theorem construction_does_not_raise :
    testInit [phaseA, phaseConflict] "t.py" "" "" =
      { phases := [phaseA, phaseConflict], output_callbacks := [],
        filename := "t.py", docstring := "", code := "", parameters := [] } ∧
    ∃ e, plug_type_map (testInit [phaseA, phaseConflict] "t.py" "" "") = .error e :=
  ⟨rfl, ⟨_, rfl⟩⟩

/-- C4 amended: `Test.__init__` is total — it returns a `Test` for every phase
list, including conflicting ones, never touching the plug map — and
`DuplicatePlugError` first arises when the lazy `plug_type_map` property is
accessed, exactly when the phases' plug requirements conflict; the access is a
pure function of the phases. -/
theorem plug_map_error_at_access (phases : List PhaseFunc)
    (filename docstring code : String) :
    (testInit phases filename docstring code).phases = phases ∧
    (testInit phases filename docstring code).output_callbacks = [] ∧
    ((∃ e, plug_type_map (testInit phases filename docstring code) = .error e) ↔
      ¬ Consistent (chainedPlugs phases)) :=
  ⟨rfl, rfl, plug_type_map_error_iff_inconsistent _⟩

/-- C10: the empty phase list is accepted — a `Test` built from zero phases is
a plain value whose output-callback list and parameter list start empty and
whose plug type map is the empty dict. -/
theorem empty_test_ok (filename docstring code : String) :
    (testInit [] filename docstring code).phases = [] ∧
    (testInit [] filename docstring code).output_callbacks = [] ∧
    (testInit [] filename docstring code).parameters = [] ∧
    plug_type_map (testInit [] filename docstring code) = .ok [] :=
  ⟨rfl, rfl, rfl, rfl⟩

/-! ## Claims C5, C6: output callbacks -/

/-- An output callback that raises on every record. -/
def raisingCb : Callback := { id := 0, raises := fun _ => true }

/-- An output callback that never raises. -/
def quietCb : Callback := { id := 1, raises := fun _ => false }

/-- The invocation trace of the `OutputTestRecord` loop, stated against the
list combinators: the callbacks before the first raiser, then the first
raiser itself (all in registration order), and the loop completes iff no
registered callback raises. -/
theorem runCallbacks_trace (callbacks : List Callback) (test_record : Nat) :
    runCallbacks callbacks test_record =
      ((callbacks.takeWhile fun cb => !cb.raises test_record).map Callback.id
          ++ (((callbacks.dropWhile fun cb => !cb.raises test_record).head?.map
                Callback.id).toList),
        callbacks.all fun cb => !cb.raises test_record) := by
  induction callbacks with
  | nil => rfl
  | cons cb rest ih =>
    by_cases h : cb.raises test_record
    · simp [runCallbacks, h, List.takeWhile_cons, List.dropWhile_cons, List.all_cons]
    · simp [runCallbacks, h, List.takeWhile_cons, List.dropWhile_cons, List.all_cons, ih]

/-- C5 counterexample: with a raising callback registered first and a second
callback after it, `OutputTestRecord` invokes only the first (trace `[0]`,
loop aborted): the exception prevents the invocation of the callback
registered after it. -/
theorem callback_exception_aborts :
    OutputTestRecord
        (AddOutputCallback (AddOutputCallback (testInit [] "cb.py" "" "") raisingCb)
          quietCb) 3 =
      ([0], false) :=
  rfl

/-- C5 amended: `OutputTestRecord` invokes callbacks in registration order,
each at most once; every callback before the first raiser is invoked, the
first raiser is invoked (and its exception propagates), and the callbacks
after it are not invoked; when no callback raises, every callback is invoked
exactly once in registration order and the loop completes. -/
theorem outputTestRecord_trace (t : Test) (test_record : Nat) :
    OutputTestRecord t test_record =
      ((t.output_callbacks.takeWhile fun cb => !cb.raises test_record).map Callback.id
          ++ (((t.output_callbacks.dropWhile fun cb => !cb.raises test_record).head?.map
                Callback.id).toList),
        t.output_callbacks.all fun cb => !cb.raises test_record) :=
  runCallbacks_trace t.output_callbacks test_record

/-- C6 counterexample: `AddOutputCallback` rejects nothing — `Test` carries no
started/running state, so registration behaves identically at any time — and
the registration takes effect: the appended callback is invoked by the next
`OutputTestRecord`. -/
theorem addOutputCallback_not_rejected :
    (AddOutputCallback (testInit [] "cb.py" "" "") quietCb).output_callbacks =
      [quietCb] ∧
    OutputTestRecord (AddOutputCallback (testInit [] "cb.py" "" "") quietCb) 3 =
      ([1], true) :=
  ⟨rfl, rfl⟩

/-- C6 amended: the API never rejects a registration: `AddOutputCallback`
unconditionally appends the callback to the live list read by
`OutputTestRecord`, leaving all other fields of the `Test` unchanged; there
is no setup-only restriction in the interface. -/
theorem addOutputCallback_appends (t : Test) (cb : Callback) :
    (AddOutputCallback t cb).output_callbacks = t.output_callbacks ++ [cb] ∧
    (AddOutputCallback t cb).phases = t.phases ∧
    (AddOutputCallback t cb).parameters = t.parameters :=
  ⟨rfl, rfl, rfl⟩
